import Mathlib

/-!
# Verification of the xdp-socket AF_XDP ring protocol

Shallow embedding of the core of the `xdp-socket` crate (files `ring.rs`,
`socket.rs`, `seek.rs`, `peek.rs`, `commit.rs`, `kick.rs`, `poll.rs`,
`create.rs`).  Machine integers (`u32`, `u64`, `usize`) are modelled as `Nat`
with explicit `% 2^32` (`wrap`) wherever the source performs wrapping `u32`
arithmetic or an `as u32` cast.  Shared atomic ring words (producer, consumer,
flags) are plain fields of the ring state: each operation below is a pure
state transformer describing the single-threaded handle-side protocol, and a
release-store to a word is modelled as writing that field.  Fallible paths
return `Except RingError`; a `debug_assert!`/`assert!` failure (a Rust panic)
is modelled by a dedicated `assertFail` outcome.
-/

namespace Xdp

/-- `FRAME_SIZE` from `ring.rs`: the size of a single UMEM frame in bytes. -/
def FRAME_SIZE : Nat := 2048

/-- `FRAME_COUNT` from `ring.rs`: the number of frames in the UMEM. -/
def FRAME_COUNT : Nat := 4096

/-- Modulus of 32-bit machine arithmetic. -/
def U32 : Nat := 2 ^ 32

/-- Reduction of a `Nat` to its `u32` value (`as u32` casts and the result of
`u32::wrapping_add` / `wrapping_sub` computations). -/
def wrap (x : Nat) : Nat := x % U32

/-- `u32::wrapping_add`. -/
def wadd (a b : Nat) : Nat := (a + b) % U32

/-- `u32::wrapping_sub` on `u32` values (both arguments reduced mod `2^32`). -/
def wsub (a b : Nat) : Nat := (a % U32 + U32 - b % U32) % U32

/-- `XdpDesc` from `ring.rs`: `{ addr: u64, len: u32, options: u32 }`. -/
structure XdpDesc where
  addr : Nat
  len : Nat
  options : Nat
deriving DecidableEq, Repr

/-- `XdpDesc::new` from `ring.rs`. -/
def XdpDesc.new (addr len options : Nat) : XdpDesc := ⟨addr, len, options⟩

/-- `Ring<T>` from `ring.rs` together with the shared words its `RingMmap`
points at.  `producer`, `consumer` and `flags` are the shared atomic `u32`
words; `descs` is the descriptor array of length `len`; `mod_mask = len - 1`
is kept as a definition rather than a field (the source stores `len as u32 - 1`). -/
structure Ring (α : Type) where
  producer : Nat
  consumer : Nat
  flags : Nat
  descs : List α
  len : Nat
deriving DecidableEq, Repr

/-- `mod_mask` field of `Ring` (`len - 1`, the power-of-two wrap mask). -/
def Ring.mod_mask {α : Type} (r : Ring α) : Nat := r.len - 1

/-- `Ring::update_producer` (release-store of `value` into the producer word). -/
def Ring.update_producer {α : Type} (r : Ring α) (value : Nat) : Ring α :=
  { r with producer := value }

/-- `Ring::update_consumer` (release-store of `value` into the consumer word). -/
def Ring.update_consumer {α : Type} (r : Ring α) (value : Nat) : Ring α :=
  { r with consumer := value }

/-- `Ring::desc_at`: copy of the descriptor at `index` (the source
`debug_assert!`s `index < len`; out-of-range reads yield the default). -/
def Ring.desc_at {α : Type} [Inhabited α] (r : Ring α) (index : Nat) : α :=
  r.descs.getD index default

/-- `Ring::mut_desc_at` used as an lvalue: overwrite the descriptor at `index`. -/
def Ring.set_desc {α : Type} (r : Ring α) (index : Nat) (v : α) : Ring α :=
  { r with descs := r.descs.set index v }

instance : Inhabited XdpDesc := ⟨⟨0, 0, 0⟩⟩

/-- `Ring<u64>::fill` from `ring.rs`: slot `i := (i + start_frame) * FRAME_SIZE`. -/
def Ring.fillAddrs (r : Ring Nat) (start_frame : Nat) : Ring Nat :=
  { r with descs := (List.range r.len).map (fun i => (i + start_frame) * FRAME_SIZE) }

/-- `Ring<XdpDesc>::fill` from `ring.rs`:
slot `i := { addr: (i + start_frame) * FRAME_SIZE, len: 0, options: 0 }`. -/
def Ring.fillDescs (r : Ring XdpDesc) (start_frame : Nat) : Ring XdpDesc :=
  { r with descs :=
      (List.range r.len).map (fun i => XdpDesc.new ((i + start_frame) * FRAME_SIZE) 0 0) }

/-- The byte slice handed back by `Ring::mut_bytes_at`: `len` bytes of the
UMEM starting at byte offset `addr` (`frames + desc.addr` in the source). -/
structure Slice where
  addr : Nat
  len : Nat
deriving DecidableEq, Repr

/-- `Ring<XdpDesc>::mut_bytes_at` from `ring.rs` (default build, i.e. with the
`no_safety_checks` feature disabled so the three `assert!`s are live).
`none` models a failed assertion (panic); on success the descriptor's `len`
field is updated and a slice of exactly `len` bytes at `desc.addr` is returned. -/
def Ring.mut_bytes_at (r : Ring XdpDesc) (index len : Nat) :
    Option (Ring XdpDesc × Slice) :=
  if index < FRAME_COUNT then
    if len < FRAME_SIZE then
      let desc := r.desc_at index
      if desc.addr + len < FRAME_SIZE * FRAME_COUNT then
        some (r.set_desc index { desc with len := len }, ⟨desc.addr, len⟩)
      else none
    else none
  else none

/-- `RingError` from `socket.rs`, extended with the two variants
(`InvalidIndex`, `InvalidLength`) that `peek.rs` raises (the crate contains
divergent revisions of the enum; the union is used here).  The source's
`Io(io::Error)` variant is called `IoError` here. -/
inductive RingError where
  | RingFull
  | RingEmpty
  | NotAvailable
  | InvalidRxHead
  | InvalidIndex
  | InvalidLength
  | IoError
deriving DecidableEq, Repr

/-- The direction-typed `Socket` state from `socket.rs`: the primary ring
`x_ring` (TX or RX descriptors), the UMEM ring `u_ring` (Completion for TX,
Fill for RX) and the cached `u32` indices `available`, `producer`, `consumer`.
The `frames` pointer, `skip_frames` and `frames_count` fields play no role in
the ring protocol and are omitted. -/
structure Socket where
  x_ring : Ring XdpDesc
  u_ring : Ring Nat
  available : Nat
  producer : Nat
  consumer : Nat
deriving DecidableEq, Repr

/-- `Socket::new` from `socket.rs` (lines 98-130), for a handle with a live
`inner`.  `isTx` selects the `_TX` or `_RX` arm of the `match t`.
TX: pre-seed the TX ring with one descriptor per frame.  RX: pre-seed the
Fill ring with one address per frame and publish Fill-producer `= u_ring.len`.
Both arms then cache `available = x_ring.len`, `producer = consumer = 0`. -/
def Socket.new (isTx : Bool) (x_ring : Ring XdpDesc) (u_ring : Ring Nat)
    (skip_frames : Nat) : Socket :=
  if isTx then
    let x := x_ring.fillDescs skip_frames
    { x_ring := x, u_ring := u_ring,
      available := wrap x.len, producer := 0, consumer := 0 }
  else
    let u := (u_ring.fillAddrs skip_frames).update_producer (wrap u_ring.len)
    { x_ring := x_ring, u_ring := u,
      available := wrap x_ring.len, producer := 0, consumer := 0 }

namespace TX

/-- `Commit_<_TX>::commit_` from `commit.rs` (lines 53-62), default build
(`no_safety_checks` disabled).  Publishes the new cached producer into the TX
ring's producer word. -/
def commit_ (s : Socket) (count : Nat) : Except RingError Socket :=
  if s.available < wrap count then .error .NotAvailable
  else
    let available := s.available - wrap count
    let producer := wadd s.producer (wrap count)
    .ok { s with available := available, producer := producer,
                 x_ring := s.x_ring.update_producer producer }

/-- Loop body of `Seek_<_TX>::seek_` from `seek.rs` (lines 59-71).  One
iteration copies the frame address out of the Completion ring at
`consumer & c_ring.mod_mask`, publishes the advanced Completion consumer,
writes a fresh descriptor into the TX ring at `producer & x_ring.mod_mask`,
and increments `available`; the loop repeats until `available >= count` or
`c_producer == consumer`. -/
def seekLoop (count c_producer : Nat) (s : Socket) : Socket :=
  let c_head := s.consumer &&& s.u_ring.mod_mask
  let addr := s.u_ring.desc_at c_head
  let desc := XdpDesc.new addr 0 0
  let consumer := wadd s.consumer 1
  let u_ring := s.u_ring.update_consumer consumer
  let x_head := s.producer &&& s.x_ring.mod_mask
  let x_ring := s.x_ring.set_desc x_head desc
  let s1 : Socket := { s with consumer := consumer, u_ring := u_ring,
                              x_ring := x_ring, available := s.available + 1 }
  if count ≤ s1.available ∨ c_producer = s1.consumer then s1
  else seekLoop count c_producer s1
termination_by count - s.available
decreasing_by
  simp only [not_or, not_le] at *
  omega

/-- `Seek_<_TX>::seek_` from `seek.rs` (lines 50-74).  Returns the `usize`
result together with the state after the call. -/
def seek_ (s : Socket) (count : Nat) : Except RingError (Nat × Socket) :=
  if count ≤ s.available then .ok (count, s)
  else
    let c_producer := s.u_ring.producer
    if c_producer = s.consumer then .error .RingFull
    else
      let s1 := seekLoop count c_producer s
      .ok (s1.available, s1)

end TX

namespace RX

/-- Loop body of `Commit_<_RX>::commit_` from `commit.rs` (lines 92-97):
for each item, copy the `addr` of the RX descriptor at
`consumer & x_ring.mod_mask` into the Fill ring at
`producer & x_ring.mod_mask` (note: the source masks the Fill slot with the
primary ring's `mod_mask`, not the Fill ring's own), then wrapping-increment
both cached counters. -/
def commitLoop (x_ring : Ring XdpDesc) (u_ring : Ring Nat)
    (consumer producer : Nat) : Nat → Ring Nat × Nat × Nat
  | 0 => (u_ring, consumer, producer)
  | n + 1 =>
    let addr := (x_ring.desc_at (consumer &&& x_ring.mod_mask)).addr
    let u1 := u_ring.set_desc (producer &&& x_ring.mod_mask) addr
    commitLoop x_ring u1 (wadd consumer 1) (wadd producer 1) n

/-- `Commit_<_RX>::commit_` from `commit.rs` (lines 85-102), default build.
After the copy loop it publishes the new RX consumer and Fill producer. -/
def commit_ (s : Socket) (count : Nat) : Except RingError Socket :=
  if s.available < wrap count then .error .NotAvailable
  else
    let r := commitLoop s.x_ring s.u_ring s.consumer s.producer (wrap count)
    .ok { s with
      u_ring := r.1.update_producer r.2.2,
      x_ring := s.x_ring.update_consumer r.2.1,
      consumer := r.2.1,
      producer := r.2.2,
      available := s.available - wrap count }

/-- `Seek_<_RX>::seek_` from `seek.rs` (lines 89-100). -/
def seek_ (s : Socket) (count : Nat) : Except RingError (Nat × Socket) :=
  if count ≤ s.available then .ok (count, s)
  else
    let x_producer := s.x_ring.producer
    if x_producer = s.consumer then .error .RingEmpty
    else
      let available := wsub x_producer s.consumer
      .ok (min available (wrap count), { s with available := available })

end RX

/-- Outcome of a `peek` call: a `RingError`, a Rust panic from a failed
`assert!` inside `mut_bytes_at` (`assertFail`), or success. -/
inductive PeekRes (α : Type) where
  | assertFail
  | err (e : RingError)
  | ok (a : α)
deriving DecidableEq, Repr

/-- `Socket<_TX>::peek_` from `peek.rs` (lines 53-65), default build: the two
guards are live; the descriptor's `len` field is written eagerly before
`mut_bytes_at` runs; the slot is `(producer + index) & x_ring.mod_mask`. -/
def TX.peek_ (s : Socket) (index len : Nat) : PeekRes (Socket × Slice) :=
  if s.available ≤ index then .err .InvalidIndex
  else if FRAME_SIZE < len then .err .InvalidLength
  else
    let x_head := (wadd s.producer (wrap index)) &&& s.x_ring.mod_mask
    let d := s.x_ring.desc_at x_head
    let x1 := s.x_ring.set_desc x_head { d with len := wrap len }
    match x1.mut_bytes_at x_head len with
    | none => .assertFail
    | some (x2, slice) => .ok ({ s with x_ring := x2 }, slice)

/-- `Socket<_RX>::peek_` from `peek.rs` (lines 137-145), default build: the
slot is `(consumer + index) & x_ring.mod_mask`; the slice length is the
kernel-written `len` field of the descriptor at that slot. -/
def RX.peek_ (s : Socket) (index : Nat) : PeekRes (Socket × Slice) :=
  if s.available ≤ index then .err .InvalidIndex
  else
    let x_head := (wadd s.consumer (wrap index)) &&& s.x_ring.mod_mask
    let len := (s.x_ring.desc_at x_head).len
    match s.x_ring.mut_bytes_at x_head len with
    | none => .assertFail
    | some (x2, slice) => .ok ({ s with x_ring := x2 }, slice)

/-- `libc::XDP_RING_NEED_WAKEUP` (bit 0 of a ring's flags word). -/
def XDP_RING_NEED_WAKEUP : Nat := 1

/-- Linux errno values matched by `kick.rs`. -/
def EAGAIN : Nat := 11

/-- Linux errno `EBUSY`. -/
def EBUSY : Nat := 16

/-- Linux errno `ENETDOWN`. -/
def ENETDOWN : Nat := 100

/-- Linux errno `ENOBUFS`. -/
def ENOBUFS : Nat := 105

/-- Outcome of the signalling syscall (`sendto`/`recvfrom`) issued by `kick`:
either a non-negative return value, or a failure whose
`io::Error::raw_os_error()` is the given `Option Nat`. -/
inductive SyscallOutcome where
  | success
  | fail (errno : Option Nat)
deriving DecidableEq, Repr

/-- Observable effect of one `Socket::kick` call: how many signalling
syscalls were issued, whether an `ENETDOWN` warning was logged, and the
returned `Result` (`Except` carries the propagated raw errno). -/
instance : DecidableEq (Except Nat Unit) := fun a b =>
  match a, b with
  | .ok (), .ok () => isTrue rfl
  | .error x, .error y =>
    if h : x = y then isTrue (by rw [h]) else isFalse (fun hc => h (by cases hc; rfl))
  | .ok (), .error y => isFalse (fun hc => Except.noConfusion hc)
  | .error x, .ok () => isFalse (fun hc => Except.noConfusion hc)

structure KickEffect where
  syscalls : Nat
  logged_netdown : Bool
  result : Except Nat Unit
deriving DecidableEq, Repr

/-- `Socket::kick` from `kick.rs` (lines 48-92).  `inner_present` is whether
`self.inner` is `Some`; `flags` is the primary ring's flags word at the load;
`sys` is the outcome the OS gives the (at most one) signalling syscall. -/
def Socket.kick (inner_present : Bool) (flags : Nat) (sys : SyscallOutcome) :
    KickEffect :=
  if inner_present then
    if flags &&& XDP_RING_NEED_WAKEUP ≠ 0 then
      match sys with
      | .success => ⟨1, false, .ok ()⟩
      | .fail none => ⟨1, false, .ok ()⟩
      | .fail (some e) =>
        if e = EBUSY ∨ e = ENOBUFS ∨ e = EAGAIN then ⟨1, false, .ok ()⟩
        else if e = ENETDOWN then ⟨1, true, .ok ()⟩
        else ⟨1, false, .error e⟩
    else ⟨0, false, .ok ()⟩
  else ⟨0, false, .ok ()⟩

/-- `libc::POLLIN`. -/
def POLLIN : Nat := 1

/-- `libc::POLLOUT`. -/
def POLLOUT : Nat := 4

/-- The readiness-wait loop of `PollWaitExt::poll_wait` from `poll.rs`
(lines 73-86).  `mask` is `POLLOUT` for TX or `POLLIN` for RX; `timeout` is
the caller's optional timeout in milliseconds; `events` is the sequence of
`(return value, revents)` outcomes the OS gives successive `poll(2)` calls.
The result is the list of timeout arguments passed to `poll(2)`, in order:
the source always passes the literal `-1` (`libc::poll(fds.as_mut_ptr(), 1, -1)`)
and loops until `revents & mask != 0`, never consulting `timeout`.  An empty
remainder of `events` models a loop still blocked in `poll`. -/
def poll_wait_calls (mask : Nat) (timeout : Option Nat) :
    List (Int × Nat) → List Int
  | [] => []
  | (ret, revents) :: rest =>
    (-1 : Int) ::
      (if ret < 0 then poll_wait_calls mask timeout rest
       else if revents &&& mask ≠ 0 then []
       else poll_wait_calls mask timeout rest)

/-- `Direction` from `create.rs`. -/
inductive Direction where
  | Tx
  | Rx
  | Both
deriving DecidableEq, Repr

/-- The `(rx_ring_size, tx_ring_size)` split at the top of `create_socket`
(`create.rs` lines 70-74). -/
def ring_sizes (direction : Direction) : Nat × Nat :=
  match direction with
  | .Tx => (0, FRAME_COUNT)
  | .Rx => (FRAME_COUNT, 0)
  | .Both => (FRAME_COUNT / 2, FRAME_COUNT / 2)

/-- `RingType` from `ring.rs`. -/
inductive RingType where
  | Tx
  | Rx
  | Fill
  | Completion
deriving DecidableEq, Repr

/-- The `u32` descriptor count `RingType::set_size` (`ring.rs` lines 341-358)
actually submits to the ring-size `setsockopt`: a zero request for the Fill or
Completion ring is raised to the kernel-enforced minimum of 1. -/
def RingType.set_size_count (ringType : RingType) (ring_size : Nat) : Nat :=
  if ring_size = 0 ∧ (ringType = RingType.Fill ∨ ringType = RingType.Completion)
  then 1 else ring_size

/-- Per-ring outcome of socket construction: the descriptor count submitted
through `set_size` (`none` when no `set_size` call is made for that ring) and
the descriptor count the ring is subsequently mmapped and masked with
(`none` when the ring is left unmapped, i.e. `Ring::default()`). -/
structure RingSetup where
  submitted : Option Nat
  mapped : Option Nat
deriving DecidableEq, Repr

/-- The ring-size `setsockopt` and mmap behaviour of `create_socket`
(`create.rs` lines 85-121) for each of the four rings, as a function of the
direction: `Fill` and `Completion` get `set_size(tx_ring_size)`, `Tx` gets
`set_size(tx_ring_size)` only when `tx_ring_size > 0`, `Rx` gets
`set_size(rx_ring_size)` only when `rx_ring_size > 0`; TX and Completion are
mmapped with `tx_ring_size` unless the direction is `Rx`, RX and Fill are
mmapped with `rx_ring_size` unless the direction is `Tx`. -/
def create_socket_setup (direction : Direction) (ringType : RingType) :
    RingSetup :=
  let sizes := ring_sizes direction
  let rx_ring_size := sizes.1
  let tx_ring_size := sizes.2
  match ringType with
  | .Fill =>
    ⟨some (RingType.set_size_count .Fill tx_ring_size),
     if direction = Direction.Tx then none else some rx_ring_size⟩
  | .Completion =>
    ⟨some (RingType.set_size_count .Completion tx_ring_size),
     if direction = Direction.Rx then none else some tx_ring_size⟩
  | .Tx =>
    ⟨if tx_ring_size > 0 then some (RingType.set_size_count .Tx tx_ring_size) else none,
     if direction = Direction.Rx then none else some tx_ring_size⟩
  | .Rx =>
    ⟨if rx_ring_size > 0 then some (RingType.set_size_count .Rx rx_ring_size) else none,
     if direction = Direction.Tx then none else some rx_ring_size⟩

/-- Projection of a `peek` outcome to the returned slice, if any. -/
def PeekRes.sliceOf : PeekRes (Socket × Slice) → Option Slice
  | .ok (_, sl) => some sl
  | _ => none

/-!
## Concrete fixtures

Reachable handle states used by the concrete theorems below.  `xr4` is a
TX ring of length 4 pre-seeded by `Ring::fill(0)`; `ur4c` is its Completion
ring after the kernel completed all four committed frames.
-/

/-- A length-4 primary descriptor ring as pre-seeded by `Ring::fill(0)`,
with producer word 4 (all four descriptors committed). -/
def xr4 : Ring XdpDesc :=
  { producer := 4, consumer := 0, flags := 0,
    descs := [⟨0, 0, 0⟩, ⟨2048, 0, 0⟩, ⟨4096, 0, 0⟩, ⟨6144, 0, 0⟩], len := 4 }

/-- A length-4 Completion ring holding the four frame addresses, with
producer word 4 (kernel completed all four frames). -/
def ur4c : Ring Nat :=
  { producer := 4, consumer := 0, flags := 0,
    descs := [0, 2048, 4096, 6144], len := 4 }

/-- TX handle state after `seek(4); commit(4)` on a 4-slot ring and full
kernel completion: cached `available = 0`, `producer = 4`, `consumer = 0`. -/
def sC3 : Socket :=
  { x_ring := xr4, u_ring := ur4c, available := 0, producer := 4, consumer := 0 }

/-- The state `TX.seek_ sC3 2` produces (computed by unfolding the loop). -/
def sC3after : Socket :=
  { x_ring := { producer := 4, consumer := 0, flags := 0,
                descs := [⟨2048, 0, 0⟩, ⟨2048, 0, 0⟩, ⟨4096, 0, 0⟩, ⟨6144, 0, 0⟩], len := 4 },
    u_ring := { producer := 4, consumer := 2, flags := 0,
                descs := [0, 2048, 4096, 6144], len := 4 },
    available := 2, producer := 4, consumer := 2 }

/-- Claim C3 (code_bug).  Frame conservation fails: on a TX handle whose four
frames were all committed and then completed by the kernel, `seek(2)` reclaims
the two distinct Completion addresses 0 and 2048 but stages both into the
same TX slot `producer & xmask` (the slot index never advances inside the
loop), so the two staged peek-window slots both read address 2048 while
address 0 is staged nowhere: a frame is duplicated and a frame is lost. -/
theorem C3_tx_seek_loses_frames :
    TX.seek_ sC3 2 = .ok (2, sC3after) ∧
    sC3.u_ring.desc_at 0 = 0 ∧
    sC3.u_ring.desc_at 1 = 2048 ∧
    (sC3after.x_ring.desc_at ((sC3after.producer + 0) &&& sC3after.x_ring.mod_mask)).addr
      = 2048 ∧
    (sC3after.x_ring.desc_at ((sC3after.producer + 1) &&& sC3after.x_ring.mod_mask)).addr
      = 2048 ∧
    (∀ k, k < 2 →
      (sC3after.x_ring.desc_at ((sC3after.producer + k) &&& sC3after.x_ring.mod_mask)).addr
        ≠ 0) := by
  refine ⟨?_, by decide, by decide, by decide, by decide, by decide⟩
  simp [TX.seek_, TX.seekLoop, sC3, sC3after, xr4, ur4c, Ring.mod_mask, Ring.desc_at,
        Ring.update_consumer, Ring.set_desc, XdpDesc.new, wadd, U32, wrap]
  decide

/-- TX handle with one staged frame (`available = 1`) and an empty Completion
ring (producer word = cached consumer = 0). -/
def sC4 : Socket :=
  { x_ring := xr4, u_ring := { ur4c with producer := 0 },
    available := 1, producer := 4, consumer := 0 }

/-- Claim C4, counterexample.  The claim says `seek(n)` returns `RingFull`
only when cached `available = 0`; but with `available = 1 > 0` and an empty
Completion ring, `seek(2)` returns `RingFull`. -/
theorem C4_counterexample :
    TX.seek_ sC4 2 = .error .RingFull ∧ sC4.available = 1 ∧ 0 < sC4.available := by
  refine ⟨?_, by decide, by decide⟩
  simp [TX.seek_, sC4, xr4, ur4c]

/-- Claim C4 (corrected).  TX `seek_(n)` returns `RingFull` exactly when the
cached `available` is below `n` AND the Completion ring's producer equals the
cached consumer; `available` need not be zero.  (In particular, for
`available ≥ n` no `RingFull` is possible, but `0 < available < n` with an
empty Completion ring does return `RingFull`.) -/
theorem C4_ringfull_iff (s : Socket) (n : Nat) :
    TX.seek_ s n = .error .RingFull ↔
      (s.available < n ∧ s.u_ring.producer = s.consumer) := by
  unfold TX.seek_
  split_ifs with h1 h2 <;> simp_all

/-- RX primary descriptor ring of length 8 with untouched (all-zero)
descriptors, as mmapped during construction. -/
def xrC2 : Ring XdpDesc :=
  { producer := 0, consumer := 0, flags := 0,
    descs := List.replicate 8 ⟨0, 0, 0⟩, len := 8 }

/-- Fill ring of length 8 before construction pre-seeds it. -/
def urC2 : Ring Nat :=
  { producer := 0, consumer := 0, flags := 0,
    descs := List.replicate 8 0, len := 8 }

/-- The RX handle produced by `Socket::new` (RX arm) on length-8 rings. -/
def sC2 : Socket := Socket.new false xrC2 urC2 0

/-- Claim C2 (code_bug).  Index monotonicity fails on the Fill ring:
`Socket::new` (RX arm) publishes Fill-producer `= f_len` (here 8), but the
cached `producer` starts at 0, so the first `commit_(1)` publishes
Fill-producer `= 1` — behind the previously published 8 both as a plain value
(`1 < 8`) and in serial-number order (the wrapped difference `1 - 8` is
`2^32 - 7 ≥ 2^31`, a regression, not an advance). -/
theorem C2_fill_producer_regression :
    sC2.u_ring.producer = 8 ∧
    ((RX.commit_ sC2 1).toOption.map fun s2 => s2.u_ring.producer) = some 1 ∧
    (1 : Nat) < 8 ∧
    2 ^ 31 ≤ wsub 1 8 := by
  decide

/-- TX handle with all four pre-seeded frames available and nothing yet
committed (`available = 4`, `producer = consumer = 0`). -/
def sC5 : Socket :=
  { x_ring := { xr4 with producer := 0 }, u_ring := ur4c,
    available := 4, producer := 0, consumer := 0 }

/-- Claim C5 (code_bug).  For `len = FRAME_SIZE` exactly, the TX `peek_`
guard (`len > FRAME_SIZE → InvalidLength`) passes, but `mut_bytes_at`'s
`assert!(len < FRAME_SIZE)` then fails: the call panics instead of returning
a FRAME_SIZE-byte slice.  For `len = FRAME_SIZE - 1` the call succeeds with
a slice of exactly that length, and for `len = FRAME_SIZE + 1` it returns
`InvalidLength` as the claim says. -/
theorem C5_full_frame_peek_panics :
    TX.peek_ sC5 0 FRAME_SIZE = .assertFail ∧
    TX.peek_ sC5 0 FRAME_SIZE ≠ .err .InvalidLength ∧
    (TX.peek_ sC5 0 (FRAME_SIZE - 1)).sliceOf = some ⟨0, FRAME_SIZE - 1⟩ ∧
    TX.peek_ sC5 0 (FRAME_SIZE + 1) = .err .InvalidLength := by
  decide

/-- Claim C7 (code_bug).  `poll_wait` does not honor its timeout argument:
every `poll(2)` call it issues is passed the literal timeout `-1` (wait
forever), whatever the caller supplied; the readiness-wait sequence is
entirely independent of the `timeout` argument.  With `timeout = some 1000`
and an immediately-ready descriptor, the single issued wait uses `-1`,
not 1000. -/
theorem C7_poll_wait_ignores_timeout :
    poll_wait_calls POLLOUT (some 1000) [((0 : Int), POLLOUT)] = [-1] ∧
    ((-1 : Int) ≠ 1000) ∧
    ∀ (mask : Nat) (timeout : Option Nat) (events : List (Int × Nat)),
      poll_wait_calls mask timeout events = poll_wait_calls mask none events := by
  refine ⟨by decide, by decide, fun mask timeout events => ?_⟩
  induction events with
  | nil => rfl
  | cons e rest ih =>
    obtain ⟨ret, revents⟩ := e
    simp only [poll_wait_calls]
    split_ifs <;> simp [ih]

/-- Claim C8 (code_bug).  `create_socket` sizes the Fill ring with
`tx_ring_size` but mmaps and masks it with `rx_ring_size`
(`create.rs` line 85 vs line 116): for direction `Rx` the Fill ring's
setsockopt submits 1 (the raised zero) while the ring is mapped and indexed
with 4096 entries; for direction `Tx` the unused Fill ring submits 4096
instead of the claimed 1.  The Completion ring behaves as claimed in every
direction. -/
theorem C8_fill_ring_size_mismatch :
    (create_socket_setup .Rx .Fill).submitted = some 1 ∧
    (create_socket_setup .Rx .Fill).mapped = some 4096 ∧
    (1 : Nat) ≠ 4096 ∧
    (create_socket_setup .Tx .Fill).submitted = some 4096 ∧
    (create_socket_setup .Tx .Fill).mapped = none ∧
    (create_socket_setup .Both .Fill) = ⟨some 2048, some 2048⟩ ∧
    (create_socket_setup .Tx .Completion) = ⟨some 4096, some 4096⟩ ∧
    (create_socket_setup .Rx .Completion) = ⟨some 1, none⟩ ∧
    (create_socket_setup .Both .Completion) = ⟨some 2048, some 2048⟩ := by
  decide

/-- TX handle with `available = 0`, all four frames committed, and exactly
one completion pending (Completion producer word = 1). -/
def sC9 : Socket :=
  { x_ring := xr4, u_ring := { ur4c with producer := 1 },
    available := 0, producer := 4, consumer := 0 }

/-- The state `TX.seek_ sC9 2` produces: one frame reclaimed, Completion
drained (`consumer = 1 =` producer word). -/
def sC9after : Socket :=
  { x_ring := xr4,
    u_ring := { producer := 1, consumer := 1, flags := 0,
                descs := [0, 2048, 4096, 6144], len := 4 },
    available := 1, producer := 4, consumer := 1 }

/-- Claim C9, counterexample.  With one reclaimable completion and no kernel
progress in between, the first `seek(2)` returns `Ok(1)` (partial reclaim,
Completion drained) but the second `seek(2)` returns `RingFull` — a different
result, contradicting the claimed idempotence.  The Completion producer word
is unchanged between the calls (no kernel progress). -/
theorem C9_counterexample :
    TX.seek_ sC9 2 = .ok (1, sC9after) ∧
    TX.seek_ sC9after 2 = .error .RingFull ∧
    sC9after.u_ring.producer = sC9.u_ring.producer := by
  refine ⟨?_, ?_, by decide⟩
  · simp [TX.seek_, TX.seekLoop, sC9, sC9after, xr4, ur4c, Ring.mod_mask, Ring.desc_at,
          Ring.update_consumer, Ring.set_desc, XdpDesc.new, wadd, U32, wrap]
    decide
  · simp [TX.seek_, sC9after, xr4]

/-- Claim C6 (confirmed).  On an open handle, `kick` issues its signalling
syscall iff the `NEED_WAKEUP` bit is set in the primary ring's flags word
(at most one syscall, none when the bit is clear); when the syscall fails
with `EAGAIN`, `EBUSY` or `ENOBUFS` it returns success; `ENETDOWN` is logged
and swallowed; any other OS error is propagated as the error result. -/
theorem C6_kick_behaviour (flags : Nat) (sys : SyscallOutcome) :
    ((Socket.kick true flags sys).syscalls = 1 ↔
        flags &&& XDP_RING_NEED_WAKEUP ≠ 0) ∧
    (Socket.kick true flags sys).syscalls ≤ 1 ∧
    (flags &&& XDP_RING_NEED_WAKEUP = 0 →
        (Socket.kick true flags sys).syscalls = 0 ∧
        (Socket.kick true flags sys).result = .ok ()) ∧
    (∀ e, sys = .fail (some e) → (e = EAGAIN ∨ e = EBUSY ∨ e = ENOBUFS) →
        (Socket.kick true flags sys).result = .ok ()) ∧
    (sys = .fail (some ENETDOWN) → flags &&& XDP_RING_NEED_WAKEUP ≠ 0 →
        (Socket.kick true flags sys).result = .ok () ∧
        (Socket.kick true flags sys).logged_netdown = true) ∧
    (∀ e, sys = .fail (some e) →
        e ≠ EAGAIN → e ≠ EBUSY → e ≠ ENOBUFS → e ≠ ENETDOWN →
        flags &&& XDP_RING_NEED_WAKEUP ≠ 0 →
        (Socket.kick true flags sys).result = .error e) := by
  cases sys with
  | success =>
    by_cases hw : flags &&& XDP_RING_NEED_WAKEUP = 0 <;>
      simp_all [Socket.kick, EAGAIN, EBUSY, ENOBUFS, ENETDOWN]
  | fail errno =>
    cases errno with
    | none =>
      by_cases hw : flags &&& XDP_RING_NEED_WAKEUP = 0 <;>
        simp_all [Socket.kick, EAGAIN, EBUSY, ENOBUFS, ENETDOWN]
    | some e =>
      by_cases hw : flags &&& XDP_RING_NEED_WAKEUP = 0 <;>
        by_cases hA : e = EAGAIN <;>
          by_cases hB : e = EBUSY <;>
            by_cases hC : e = ENOBUFS <;>
              by_cases hD : e = ENETDOWN <;>
                simp_all [Socket.kick, EAGAIN, EBUSY, ENOBUFS, ENETDOWN]

/-- Witness for C6: a concrete application — with the `NEED_WAKEUP` bit set
and the syscall failing with raw errno 13 (`EACCES`), `kick` issued exactly
one syscall and propagated the error. -/
theorem C6_kick_behaviour_witness :
    (Socket.kick true 1 (.fail (some 13))).result = .error 13 ∧
    (Socket.kick true 1 (.fail (some 13))).syscalls = 1 := by
  have h := C6_kick_behaviour 1 (.fail (some 13))
  refine ⟨h.2.2.2.2.2 13 rfl (by decide) (by decide) (by decide) (by decide) (by decide), ?_⟩
  exact (h.1).mpr (by decide)

/-- Characterisation of a successful `mut_bytes_at`: all three safety
assertions passed and the slice is exactly `len` bytes at the descriptor's
address. -/
theorem mut_bytes_at_ok (r r2 : Ring XdpDesc) (index len : Nat) (sl : Slice)
    (h : r.mut_bytes_at index len = some (r2, sl)) :
    sl.len = len ∧ len < FRAME_SIZE ∧
    sl.addr = (r.desc_at index).addr ∧
    sl.addr + sl.len < FRAME_SIZE * FRAME_COUNT := by
  unfold Ring.mut_bytes_at at h
  dsimp only at h
  split_ifs at h with h1 h2 h3
  injection h with h
  injection h with hr hsl
  subst hsl
  exact ⟨rfl, h2, rfl, h3⟩

/-- Claim C10 (confirmed).  With the default safety checks, every slice a
TX or RX peek successfully returns lies wholly inside the UMEM
(`addr + len < FRAME_COUNT * FRAME_SIZE`) and is strictly shorter than
`FRAME_SIZE`; and an RX descriptor whose kernel-set `len` equals
`FRAME_SIZE` makes `peek_` fail the runtime assertion (panic outcome)
instead of returning a buffer. -/
theorem C10_peek_slices_in_umem :
    (∀ (s : Socket) (i l : Nat) (s2 : Socket) (sl : Slice),
        TX.peek_ s i l = .ok (s2, sl) →
        sl.len < FRAME_SIZE ∧ sl.addr + sl.len < FRAME_COUNT * FRAME_SIZE) ∧
    (∀ (s : Socket) (i : Nat) (s2 : Socket) (sl : Slice),
        RX.peek_ s i = .ok (s2, sl) →
        sl.len < FRAME_SIZE ∧ sl.addr + sl.len < FRAME_COUNT * FRAME_SIZE) ∧
    (∀ (s : Socket) (i : Nat), i < s.available →
        (s.x_ring.desc_at ((wadd s.consumer (wrap i)) &&& s.x_ring.mod_mask)).len
          = FRAME_SIZE →
        RX.peek_ s i = .assertFail) := by
  refine ⟨?_, ?_, ?_⟩
  · intro s i l s2 sl h
    unfold TX.peek_ at h
    split_ifs at h with h1 h2
    revert h
    dsimp only
    split
    · intro h
      exact PeekRes.noConfusion h
    · rename_i x2 sl2 heq
      intro h
      injection h with h
      injection h with hs hsl
      subst hsl
      have := mut_bytes_at_ok _ _ _ _ _ heq
      rw [FRAME_COUNT, FRAME_SIZE] at *
      omega
  · intro s i s2 sl h
    unfold RX.peek_ at h
    split_ifs at h with h1
    revert h
    dsimp only
    split
    · intro h
      exact PeekRes.noConfusion h
    · rename_i x2 sl2 heq
      intro h
      injection h with h
      injection h with hs hsl
      subst hsl
      have := mut_bytes_at_ok _ _ _ _ _ heq
      rw [FRAME_COUNT, FRAME_SIZE] at *
      omega
  · intro s i hi hlen
    unfold RX.peek_
    rw [if_neg (by omega)]
    have hnone : s.x_ring.mut_bytes_at ((wadd s.consumer (wrap i)) &&& s.x_ring.mod_mask)
        ((s.x_ring.desc_at ((wadd s.consumer (wrap i)) &&& s.x_ring.mod_mask)).len) = none := by
      unfold Ring.mut_bytes_at
      dsimp only
      split_ifs with h1 h2
      · rw [hlen] at h2
        exact absurd h2 (lt_irrefl _)
      all_goals rfl
    dsimp only
    rw [hnone]

/-- An RX handle with two received descriptors: slot 0's kernel-set length is
a full `FRAME_SIZE` (2048) and slot 1 holds a 3-byte packet at address 2048. -/
def sC10 : Socket :=
  { x_ring := { producer := 2, consumer := 0, flags := 0,
                descs := [⟨0, 2048, 0⟩, ⟨2048, 3, 0⟩], len := 2 },
    u_ring := ur4c, available := 2, producer := 0, consumer := 0 }

/-- Witness for C10: at the concrete RX state `sC10`, peeking index 0 (whose
descriptor length is exactly `FRAME_SIZE`) yields the assertion-failure
outcome. -/
theorem C10_peek_slices_in_umem_witness : RX.peek_ sC10 0 = .assertFail :=
  C10_peek_slices_in_umem.2.2 sC10 0 (by decide) (by decide)

/-- Invariants of the TX reclaim loop: it never touches the Completion ring's
producer word, it overshoots `count` by at most the do-while step, and it
exits only with `count` reached or the Completion ring drained
(`c_producer = consumer`). -/
theorem seekLoop_spec (count c_producer : Nat) (s : Socket) :
    (TX.seekLoop count c_producer s).u_ring.producer = s.u_ring.producer ∧
    (s.available < count → (TX.seekLoop count c_producer s).available ≤ count) ∧
    (count ≤ (TX.seekLoop count c_producer s).available ∨
      c_producer = (TX.seekLoop count c_producer s).consumer) := by
  have H : ∀ (d : Nat) (s : Socket), count - s.available ≤ d →
      (TX.seekLoop count c_producer s).u_ring.producer = s.u_ring.producer ∧
      (s.available < count → (TX.seekLoop count c_producer s).available ≤ count) ∧
      (count ≤ (TX.seekLoop count c_producer s).available ∨
        c_producer = (TX.seekLoop count c_producer s).consumer) := by
    intro d
    induction d with
    | zero =>
      intro s hle
      rw [TX.seekLoop]
      dsimp only
      rw [if_pos (Or.inl (by omega))]
      dsimp only
      exact ⟨rfl, by omega, Or.inl (by omega)⟩
    | succ d ih =>
      intro s hle
      rw [TX.seekLoop]
      dsimp only
      by_cases hexit : count ≤ s.available + 1 ∨
          c_producer = wadd s.consumer 1
      · rw [if_pos hexit]
        dsimp only
        exact ⟨rfl, fun h => by omega, hexit⟩
      · rw [if_neg hexit]
        have hlt : s.available + 1 < count := by omega
        have hrec := ih { s with
          consumer := wadd s.consumer 1,
          u_ring := s.u_ring.update_consumer (wadd s.consumer 1),
          x_ring := s.x_ring.set_desc (s.producer &&& s.x_ring.mod_mask)
            (XdpDesc.new (s.u_ring.desc_at (s.consumer &&& s.u_ring.mod_mask)) 0 0),
          available := s.available + 1 } (by dsimp only; omega)
        dsimp only [Ring.update_consumer] at hrec
        obtain ⟨ha, hb, hc⟩ := hrec
        exact ⟨ha, fun _ => hb (by omega), hc⟩
  exact H (count - s.available) s (le_refl _)

/-- Claim C9 (corrected).  TX seek idempotence under no kernel progress holds
except after a partial reclaim: a second `seek_(n)` (with the Completion
producer word unchanged, which the first call never modifies) mutates nothing,
and returns the same result as the first whenever the first returned an error
or `Ok(k)` with `k = n`; but when the first call drained the Completion ring
while still short of `n` (it returned `Ok(k)` with `k < n`), the second call
returns `RingFull` instead of repeating `Ok(k)`. -/
theorem C9_seek_second_call (s : Socket) (n : Nat) :
    (∀ k s1, TX.seek_ s n = .ok (k, s1) →
        k ≤ n ∧
        s1.u_ring.producer = s.u_ring.producer ∧
        (k = n → TX.seek_ s1 n = .ok (n, s1)) ∧
        (k < n → TX.seek_ s1 n = .error .RingFull)) ∧
    (∀ e, TX.seek_ s n = .error e → e = .RingFull) := by
  constructor
  · intro k s1 h
    unfold TX.seek_ at h
    dsimp only at h
    split_ifs at h with h1 h2
    · injection h with h
      injection h with hk hs
      subst hs
      refine ⟨le_of_eq hk.symm, rfl, fun _ => ?_, fun hlt => absurd hk (by omega)⟩
      unfold TX.seek_
      rw [if_pos h1]
    · injection h with hpair
      injection hpair with hk hs
      subst hs
      obtain ⟨hprod, hbound, hexit⟩ := seekLoop_spec n s.u_ring.producer s
      subst hk
      have hk2 : (TX.seekLoop n s.u_ring.producer s).available ≤ n :=
        hbound (by omega)
      refine ⟨hk2, hprod, fun heq => ?_, fun hlt => ?_⟩
      · unfold TX.seek_
        rw [if_pos (le_of_eq heq.symm)]
      · unfold TX.seek_
        dsimp only
        rw [if_neg (by omega)]
        rcases hexit with hge | hdrain
        · omega
        · rw [hprod, if_pos hdrain]
  · intro e h
    unfold TX.seek_ at h
    dsimp only at h
    split_ifs at h
    injection h with h
    exact h.symm

/-- Witness for C9: applying the theorem at the concrete partially-drained
state `sC9` (one reclaimable completion, `seek(2)` returns `Ok(1)`): the
second `seek(2)` returns `RingFull`. -/
theorem C9_seek_second_call_witness : TX.seek_ sC9after 2 = .error .RingFull := by
  have happ := (C9_seek_second_call sC9 2).1 1 sC9after
  have hfirst : TX.seek_ sC9 2 = .ok (1, sC9after) := by
    simp [TX.seek_, TX.seekLoop, sC9, sC9after, xr4, ur4c, Ring.mod_mask, Ring.desc_at,
          Ring.update_consumer, Ring.set_desc, XdpDesc.new, wadd, U32, wrap]
    decide
  exact (happ hfirst).2.2.2 (by omega)

/-- `2^32` is positive. -/
theorem U32_pos : 0 < U32 := by
  rw [U32]
  exact Nat.pos_pow_of_pos 32 (by omega)

/-- Reducing mod `2^32` first does not change a value mod `2^a` for `a ≤ 32`. -/
theorem mod_U32_mod_pow (a : Nat) (ha : a ≤ 32) (x : Nat) :
    x % U32 % 2 ^ a = x % 2 ^ a :=
  Nat.mod_mod_of_dvd x (pow_dvd_pow 2 ha)

/-- Adding after a mod-`2^32` reduction agrees with adding first, mod `2^a`. -/
theorem mod_U32_add_mod_pow (a : Nat) (ha : a ≤ 32) (x k : Nat) :
    (x % U32 + k) % 2 ^ a = (x + k) % 2 ^ a := by
  conv_lhs => rw [Nat.add_mod]
  rw [mod_U32_mod_pow a ha, ← Nat.add_mod]

/-- Masking with `len - 1` is reduction mod `len` when `len` is `2^a`. -/
theorem and_mask_mod (a x len : Nat) (h : len = 2 ^ a) :
    x &&& (len - 1) = x % 2 ^ a := by
  subst h
  exact Nat.and_pow_two_sub_one_eq_mod x a

/-- The RX commit loop advances both cached counters by one per iteration,
wrapping mod `2^32`. -/
theorem commitLoop_counters (x : Ring XdpDesc) (n : Nat) :
    ∀ (u : Ring Nat) (c p : Nat), c < U32 → p < U32 →
      (RX.commitLoop x u c p n).2.1 = (c + n) % U32 ∧
      (RX.commitLoop x u c p n).2.2 = (p + n) % U32 := by
  induction n with
  | zero =>
    intro u c p hc hp
    simp [RX.commitLoop, Nat.mod_eq_of_lt hc, Nat.mod_eq_of_lt hp]
  | succ n ih =>
    intro u c p hc hp
    rw [RX.commitLoop]
    obtain ⟨h1, h2⟩ := ih _ (wadd c 1) (wadd p 1)
      (Nat.mod_lt _ U32_pos) (Nat.mod_lt _ U32_pos)
    refine ⟨?_, ?_⟩
    · rw [h1, wadd, Nat.mod_add_mod]
      congr 1
      omega
    · rw [h2, wadd, Nat.mod_add_mod]
      congr 1
      omega

/-- The RX commit loop touches only the Fill ring's descriptor array: its
producer and consumer words, its length, and the array length are unchanged. -/
theorem commitLoop_words (x : Ring XdpDesc) (n : Nat) :
    ∀ (u : Ring Nat) (c p : Nat),
      (RX.commitLoop x u c p n).1.producer = u.producer ∧
      (RX.commitLoop x u c p n).1.consumer = u.consumer ∧
      (RX.commitLoop x u c p n).1.len = u.len ∧
      (RX.commitLoop x u c p n).1.descs.length = u.descs.length := by
  induction n with
  | zero =>
    intro u c p
    exact ⟨rfl, rfl, rfl, rfl⟩
  | succ n ih =>
    intro u c p
    rw [RX.commitLoop]
    obtain ⟨h1, h2, h3, h4⟩ := ih _ (wadd c 1) (wadd p 1)
    refine ⟨h1, h2, h3, h4.trans ?_⟩
    simp [Ring.set_desc]

/-- Frame rule for the RX commit loop: a Fill slot whose index is hit by no
iteration keeps its previous contents. -/
theorem commitLoop_untouched (x : Ring XdpDesc) (a : Nat) (ha : a ≤ 32)
    (hx : x.len = 2 ^ a) (n : Nat) :
    ∀ (u : Ring Nat) (c p i : Nat),
      (∀ k, k < n → i ≠ (p + k) % 2 ^ a) →
      (RX.commitLoop x u c p n).1.descs.getD i 0 = u.descs.getD i 0 := by
  induction n with
  | zero =>
    intro u c p i h
    rfl
  | succ n ih =>
    intro u c p i h
    rw [RX.commitLoop]
    rw [ih _ (wadd c 1) (wadd p 1) i ?hk]
    case hk =>
      intro k hk hEq
      apply h (k + 1) (by omega)
      rw [hEq, wadd, mod_U32_add_mod_pow a ha,
        show p + 1 + k = p + (k + 1) from by omega]
    have hne : (p &&& x.mod_mask) ≠ i := by
      rw [Ring.mod_mask, hx, and_mask_mod a _ _ rfl]
      intro hEq
      exact h 0 (by omega) (by rw [← hEq, Nat.add_zero])
    simp only [Ring.set_desc]
    rw [List.getD_eq_getElem?_getD, List.getD_eq_getElem?_getD,
      List.getElem?_set_ne hne]

/-- Main content of the RX commit loop: the `k`-th iteration copies the
address of the RX descriptor at `(c + k) mod 2^a` into the Fill slot at
`(p + k) mod 2^a`, and (for at most one lap, `n ≤ len`) no later iteration
overwrites it. -/
theorem commitLoop_writes (x : Ring XdpDesc) (a : Nat) (ha : a ≤ 32)
    (hx : x.len = 2 ^ a) (n : Nat) :
    ∀ (u : Ring Nat) (c p : Nat),
      n ≤ x.len → u.descs.length = u.len → u.len = x.len →
      ∀ k, k < n →
        (RX.commitLoop x u c p n).1.descs.getD ((p + k) % 2 ^ a) 0 =
          (x.descs.getD ((c + k) % 2 ^ a) default).addr := by
  induction n with
  | zero =>
    intro u c p hn hud hul k hk
    exact absurd hk (Nat.not_lt_zero k)
  | succ n ih =>
    intro u c p hn hud hul k hk
    rw [hx] at hn
    rw [RX.commitLoop]
    cases k with
    | zero =>
      rw [commitLoop_untouched x a ha hx n _ (wadd c 1) (wadd p 1) _ ?frame]
      case frame =>
        intro j hj hEq
        rw [wadd, mod_U32_add_mod_pow a ha] at hEq
        have h1 : (p + (1 + j)) % 2 ^ a = (p + 0) % 2 ^ a := by
          rw [← Nat.add_assoc, ← hEq]
        have h2 : (2 ^ a : Nat) ∣ (1 + j) :=
          (Nat.modEq_zero_iff_dvd).mp (Nat.ModEq.add_left_cancel' p h1)
        exact absurd (Nat.le_of_dvd (by omega) h2) (by omega)
      simp only [Nat.add_zero, Ring.set_desc, Ring.desc_at, Ring.mod_mask, hx,
        and_mask_mod a _ _ rfl]
      rw [List.getD_eq_getElem?_getD, List.getElem?_set_eq_of_lt _ ?hlt,
        Option.getD_some]
      case hlt =>
        have hlen : u.descs.length = 2 ^ a := by rw [hud, hul, hx]
        rw [hlen]
        exact Nat.mod_lt _ (Nat.pos_pow_of_pos a (by omega))
    | succ k =>
      have hidxp : ((wadd p 1) + k) % 2 ^ a = (p + (k + 1)) % 2 ^ a := by
        rw [wadd, mod_U32_add_mod_pow a ha,
          show p + 1 + k = p + (k + 1) from by omega]
      have hidxc : ((wadd c 1) + k) % 2 ^ a = (c + (k + 1)) % 2 ^ a := by
        rw [wadd, mod_U32_add_mod_pow a ha,
          show c + 1 + k = c + (k + 1) from by omega]
      rw [← hidxp, ← hidxc]
      exact ih (u.set_desc (p &&& x.mod_mask) ((x.desc_at (c &&& x.mod_mask)).addr))
        (wadd c 1) (wadd p 1) (by rw [hx]; omega)
        (by simp [Ring.set_desc, hud]) hul k (by omega)

/-- Claim C1 (confirmed).  RX `commit_(n)` with `n ≤ available`: for each of
the `n` items it copies the frame address out of the RX descriptor at
`consumer & xmask` into the Fill ring at `producer & fmask` (stated below with
`fmask = u_ring.len - 1`, the Fill ring's own wrap mask — the code indexes the
Fill ring with the primary ring's mask, and the hypothesis
`u_ring.len = x_ring.len`, true of every socket the library constructs since
both rings are mmapped with `rx_ring_size`, makes the two masks equal);
it wrapping-increments the cached `consumer` and `producer`, publishes the
new RX-consumer and Fill-producer words, and decreases `available` by exactly
`n`; the Fill ring's last `n` slots (`producer + k` for `k < n` below the new
producer `producer + n`) hold exactly the addresses of the `n` RX descriptors
just consumed. -/
theorem C1_rx_commit_refills (s : Socket) (n a : Nat)
    (ha : a ≤ 32) (hx : s.x_ring.len = 2 ^ a)
    (hul : s.u_ring.len = s.x_ring.len)
    (hud : s.u_ring.descs.length = s.u_ring.len)
    (hn : n ≤ s.available) (hnlen : n ≤ s.x_ring.len) (hn32 : n < U32)
    (hp : s.producer < U32) (hc : s.consumer < U32) :
    ∃ s2, RX.commit_ s n = .ok s2 ∧
      s2.available = s.available - n ∧
      s2.consumer = (s.consumer + n) % U32 ∧
      s2.producer = (s.producer + n) % U32 ∧
      s2.x_ring.consumer = (s.consumer + n) % U32 ∧
      s2.u_ring.producer = (s.producer + n) % U32 ∧
      ∀ k, k < n →
        s2.u_ring.desc_at ((s.producer + k) &&& s.u_ring.mod_mask) =
          (s.x_ring.desc_at ((s.consumer + k) &&& s.x_ring.mod_mask)).addr := by
  have hwrapn : wrap n = n := Nat.mod_eq_of_lt hn32
  obtain ⟨hcc, hcp⟩ :=
    commitLoop_counters s.x_ring n s.u_ring s.consumer s.producer hc hp
  unfold RX.commit_
  rw [hwrapn, if_neg (by omega)]
  dsimp only
  refine ⟨_, rfl, rfl, hcc, hcp, ?_, ?_, ?_⟩
  · simpa only [Ring.update_consumer] using hcc
  · simpa only [Ring.update_producer] using hcp
  · intro k hk
    simp only [Ring.update_producer, Ring.desc_at, Ring.mod_mask, hul, hx,
      and_mask_mod a _ _ rfl]
    exact commitLoop_writes s.x_ring a ha hx n s.u_ring s.consumer s.producer
      hnlen hud hul k hk

/-- A concrete RX handle: 4-slot rings of equal length, two received packets
at addresses 100 and 200, Fill ring initially published full. -/
def sC1 : Socket :=
  { x_ring := { producer := 2, consumer := 0, flags := 0,
                descs := [⟨100, 5, 0⟩, ⟨200, 7, 0⟩, ⟨300, 9, 0⟩, ⟨400, 11, 0⟩], len := 4 },
    u_ring := { producer := 4, consumer := 0, flags := 0,
                descs := [0, 0, 0, 0], len := 4 },
    available := 2, producer := 0, consumer := 0 }

/-- Witness for C1: the theorem applied to the concrete handle `sC1` with
`n = 2` (all hypotheses discharged by computation). -/
theorem C1_rx_commit_refills_witness :
    ∃ s2, RX.commit_ sC1 2 = .ok s2 ∧
      s2.available = sC1.available - 2 ∧
      s2.consumer = (sC1.consumer + 2) % U32 ∧
      s2.producer = (sC1.producer + 2) % U32 ∧
      s2.x_ring.consumer = (sC1.consumer + 2) % U32 ∧
      s2.u_ring.producer = (sC1.producer + 2) % U32 ∧
      ∀ k, k < 2 →
        s2.u_ring.desc_at ((sC1.producer + k) &&& sC1.u_ring.mod_mask) =
          (sC1.x_ring.desc_at ((sC1.consumer + k) &&& sC1.x_ring.mod_mask)).addr :=
  C1_rx_commit_refills sC1 2 2 (by decide) (by decide) (by decide) (by decide)
    (by decide) (by decide) (by decide) (by decide) (by decide)

end Xdp
